import Mathlib

/-!
Verification of the breakout-and-retest backtester (`breaknretest.py`).

The embedding translates the three core components of the script:
`detect_breakout_retests` (signal detection), `backtest` (trade
simulation) and `compute_statistics` (performance metrics).  Prices,
balances and timestamps are modelled as rationals; the module-level
constants (`LOOKBACK`, `RETTEST_LOOKAHEAD`, `INITIAL_BALANCE`,
`RISK_PER_TRADE`, `RR`) become fields of an explicit `Config` record,
with the script's own values recorded in `sourceConfig`.  Fallible
behaviour (the `NameError` on a dangling loop variable, the
`IndexError` on a too-short series) is modelled with `Option`.
-/

namespace BRT

/-- One OHLC bar of the price series (`df` rows).  The script never
reads the open price, so only `time`, `high`, `low`, `close` appear. -/
structure Bar where
  time : ℚ
  high : ℚ
  low : ℚ
  close : ℚ
deriving DecidableEq

instance : Inhabited Bar := ⟨⟨0, 0, 0, 0⟩⟩

/-- Trade direction; the source uses the strings `'buy'` / `'sell'`. -/
inductive Dir where
  | buy
  | sell
deriving DecidableEq

instance : Fintype Dir :=
  ⟨⟨{Dir.buy, Dir.sell}, by decide⟩, by intro x; cases x <;> decide⟩

/-- The module-level configuration constants of the script. -/
structure Config where
  LOOKBACK : ℕ
  RETTEST_LOOKAHEAD : ℕ
  INITIAL_BALANCE : ℚ
  RISK_PER_TRADE : ℚ
  RR : ℚ
deriving DecidableEq

/-- The constant values hard-coded in the script. -/
def sourceConfig : Config := ⟨40, 20, 10000, 1 / 100, 2⟩

def barAt (df : List Bar) (i : ℕ) : Bar := df.getD i default

def highAt (df : List Bar) (i : ℕ) : ℚ := (barAt df i).high

def lowAt (df : List Bar) (i : ℕ) : ℚ := (barAt df i).low

def closeAt (df : List Bar) (i : ℕ) : ℚ := (barAt df i).close

def timeAt (df : List Bar) (i : ℕ) : ℚ := (barAt df i).time

/-- `max` of a list of prices, as `pandas` `.max()` on a nonempty slice. -/
def listMax : List ℚ → ℚ
  | [] => 0
  | x :: xs => xs.foldl max x

/-- `min` of a list of prices, as `pandas` `.min()` on a nonempty slice. -/
def listMin : List ℚ → ℚ
  | [] => 0
  | x :: xs => xs.foldl min x

/-- The half-open slice `df.iloc[a:b]` of the bar list. -/
def windowSlice (df : List Bar) (a b : ℕ) : List Bar := (df.drop a).take (b - a)

/-- `zone_high = df['high'].iloc[i-LOOKBACK:i].max()`. -/
def zone_high (cfg : Config) (df : List Bar) (i : ℕ) : ℚ :=
  listMax ((windowSlice df (i - cfg.LOOKBACK) i).map Bar.high)

/-- `zone_low = df['low'].iloc[i-LOOKBACK:i].min()`. -/
def zone_low (cfg : Config) (df : List Bar) (i : ℕ) : ℚ :=
  listMin ((windowSlice df (i - cfg.LOOKBACK) i).map Bar.low)

/-- A `for j in range(s, s+n): if f j: ...; break` loop: the first index
`j` in `[s, s+n)` at which `f` fires, together with its payload. -/
def scanFirst {β : Type} (f : ℕ → Option β) : ℕ → ℕ → Option (ℕ × β)
  | _, 0 => none
  | j, n + 1 =>
    match f j with
    | some b => some (j, b)
    | none => scanFirst f (j + 1) n

/-- The body of the detector loop at origin bar `i`: the (index,
direction) pair this breakout writes into the `Signal` column, if any.
Mirrors lines 69-84 of the script: an upward breakout
(`close_i > zone_high`) retests at the first `j` in
`(i, i+RETTEST_LOOKAHEAD]` with `low[j] <= zone_high` (labelled `buy`);
a downward breakout (`close_i < zone_low`) retests at the first `j`
with `high[j] >= zone_low` (labelled `sell`). -/
def signalAt (cfg : Config) (df : List Bar) (i : ℕ) : Option (ℕ × Dir) :=
  if zone_high cfg df i < closeAt df i then
    scanFirst (fun j => if lowAt df j ≤ zone_high cfg df i then some Dir.buy else none)
      (i + 1) cfg.RETTEST_LOOKAHEAD
  else if closeAt df i < zone_low cfg df i then
    scanFirst (fun j => if zone_low cfg df i ≤ highAt df j then some Dir.sell else none)
      (i + 1) cfg.RETTEST_LOOKAHEAD
  else
    none

/-- The origin indices scanned by the detector:
`range(LOOKBACK, len(df) - RETTEST_LOOKAHEAD)`. -/
def detectRange (cfg : Config) (df : List Bar) : List ℕ :=
  List.range' cfg.LOOKBACK (df.length - cfg.RETTEST_LOOKAHEAD - cfg.LOOKBACK)

/-- One detector-loop iteration acting on the `Signal` column:
`df.at[df.index[j], 'Signal'] = direction` (an overwrite). -/
def applySignal (cfg : Config) (df : List Bar) (m : ℕ → Option Dir) (i : ℕ) :
    ℕ → Option Dir :=
  match signalAt cfg df i with
  | some (j, d) => Function.update m j (some d)
  | none => m

/-- `detect_breakout_retests`: the final `Signal` column, starting from
all-`None` and applying every origin bar's write in loop order. -/
def detect_breakout_retests (cfg : Config) (df : List Bar) : ℕ → Option Dir :=
  (detectRange cfg df).foldl (applySignal cfg df) (fun _ => none)

/-- The stop-loss of line 98: trailing-window low for `buy`,
trailing-window high for `sell`, over `[i-LOOKBACK, i)`. -/
def stopOf (cfg : Config) (df : List Bar) (i : ℕ) : Dir → ℚ
  | Dir.buy => listMin ((windowSlice df (i - cfg.LOOKBACK) i).map Bar.low)
  | Dir.sell => listMax ((windowSlice df (i - cfg.LOOKBACK) i).map Bar.high)

/-- The take-profit of line 99, with entry price `close[i]`. -/
def targetOf (cfg : Config) (df : List Bar) (i : ℕ) : Dir → ℚ
  | Dir.buy => closeAt df i + (closeAt df i - stopOf cfg df i Dir.buy) * cfg.RR
  | Dir.sell => closeAt df i - (stopOf cfg df i Dir.sell - closeAt df i) * cfg.RR

/-- The stop condition checked at resolution bar `j` (lines 103/107). -/
def stopHit (df : List Bar) (d : Dir) (sl : ℚ) (j : ℕ) : Bool :=
  match d with
  | Dir.buy => decide (lowAt df j ≤ sl)
  | Dir.sell => decide (sl ≤ highAt df j)

/-- The target condition checked at resolution bar `j` (lines 105/109). -/
def targetHit (df : List Bar) (d : Dir) (tp : ℚ) (j : ℕ) : Bool :=
  match d with
  | Dir.buy => decide (tp ≤ closeAt df j)
  | Dir.sell => decide (closeAt df j ≤ tp)

/-- Outcome of one resolution bar: the stop check comes first, then the
target check; `some true` means the stop fired (a loss), `some false`
means the target fired (a win), `none` means the trade stays open. -/
def barOutcome (df : List Bar) (d : Dir) (sl tp : ℚ) (j : ℕ) : Option Bool :=
  if stopHit df d sl j then some true
  else if targetHit df d tp j then some false
  else none

/-- The resolution walk `for j in range(i+1, len(df))` of lines 101-110:
first bar at which the trade settles, with its loss/win flag. -/
def resolveScan (df : List Bar) (d : Dir) (sl tp : ℚ) (i : ℕ) : Option (ℕ × Bool) :=
  scanFirst (barOutcome df d sl tp) (i + 1) (df.length - (i + 1))

/-- The running state of the `backtest` walk.  `lastJ` models the Python
loop variable `j`, which survives between iterations of the outer loop;
it is `none` before any resolution scan has run (reading it then is the
script's `NameError`). -/
structure BTState where
  balance : ℚ
  equity : List ℚ
  times : List ℚ
  wins : ℕ
  losses : ℕ
  lastJ : Option ℕ
deriving DecidableEq

/-- One iteration of the outer `backtest` loop at bar `i` (lines
94-113).  On a signal bar the risk, stop and target are fixed from the
state at entry, the resolution scan runs, and an equity point is
appended unconditionally afterwards — with the resolution bar's
timestamp if the trade settled, with the final bar's timestamp if the
scan exhausted a nonempty window, and with the stale `j` of the previous
trade if the scan window was empty (`none` = `NameError` if there was
no previous trade). -/
def step (cfg : Config) (df : List Bar) (sig : ℕ → Option Dir) (st : BTState)
    (i : ℕ) : Option BTState :=
  match sig i with
  | none => some st
  | some d =>
    let risk := st.balance * cfg.RISK_PER_TRADE
    let sl := stopOf cfg df i d
    let tp := targetOf cfg df i d
    match resolveScan df d sl tp i with
    | some (j, isStop) =>
      let bal := if isStop then st.balance - risk else st.balance + risk * cfg.RR
      some ⟨bal, st.equity ++ [bal], st.times ++ [timeAt df j],
            if isStop then st.wins else st.wins + 1,
            if isStop then st.losses + 1 else st.losses,
            some j⟩
    | none =>
      if i + 1 < df.length then
        some ⟨st.balance, st.equity ++ [st.balance],
              st.times ++ [timeAt df (df.length - 1)],
              st.wins, st.losses, some (df.length - 1)⟩
      else
        match st.lastJ with
        | some j0 =>
          some ⟨st.balance, st.equity ++ [st.balance], st.times ++ [timeAt df j0],
                st.wins, st.losses, some j0⟩
        | none => none

/-- The externally visible output of `backtest`. -/
structure BTResult where
  balance : ℚ
  equity : List ℚ
  times : List ℚ
  wins : ℕ
  losses : ℕ
deriving DecidableEq

/-- The bars walked by the outer loop: `range(LOOKBACK + 1, len(df))`. -/
def btRange (cfg : Config) (df : List Bar) : List ℕ :=
  List.range' (cfg.LOOKBACK + 1) (df.length - (cfg.LOOKBACK + 1))

/-- `backtest`: seeds the equity curve with
`(df.index[LOOKBACK], INITIAL_BALANCE)` — an `IndexError` (`none`) when
the series has at most `LOOKBACK` bars — and folds `step` over the
walked bars. -/
def backtest (cfg : Config) (df : List Bar) (sig : ℕ → Option Dir) :
    Option BTResult :=
  if cfg.LOOKBACK < df.length then
    match (btRange cfg df).foldlM (step cfg df sig)
        ⟨cfg.INITIAL_BALANCE, [cfg.INITIAL_BALANCE], [timeAt df cfg.LOOKBACK],
         0, 0, none⟩ with
    | some st => some ⟨st.balance, st.equity, st.times, st.wins, st.losses⟩
    | none => none
  else none

/-- Whether bar `i` carries a consumable signal (`sig in ('buy','sell')`). -/
def isSignalBar (sig : ℕ → Option Dir) (i : ℕ) : Bool := (sig i).isSome

/-- Whether the trade opened at signal bar `i` settles before the series
ends. -/
def resolvedAt (cfg : Config) (df : List Bar) (sig : ℕ → Option Dir) (i : ℕ) :
    Bool :=
  match sig i with
  | some d => (resolveScan df d (stopOf cfg df i d) (targetOf cfg df i d) i).isSome
  | none => false

/-- Number of trades the walk opens (signal bars among the walked bars). -/
def openedCount (cfg : Config) (df : List Bar) (sig : ℕ → Option Dir) : ℕ :=
  ((btRange cfg df).filter (fun i => isSignalBar sig i)).length

/-- Number of opened trades that settle against a stop or target. -/
def resolvedCount (cfg : Config) (df : List Bar) (sig : ℕ → Option Dir) : ℕ :=
  ((btRange cfg df).filter (fun i => resolvedAt cfg df sig i)).length

/-- `rets = np.diff(eq) / eq[:-1]`. -/
def rets (eq : List ℚ) : List ℚ := List.zipWith (fun a b => (b - a) / a) eq eq.tail

/-- `total_ret = (eq[-1] / eq[0]) - 1`. -/
def total_ret (eq : List ℚ) : ℚ := eq.getLastD 0 / eq.headD 0 - 1

/-- Elapsed years between the first and last timestamp (in seconds),
`(timestamps[-1] - timestamps[0]).total_seconds() / (365.25*24*3600)`. -/
def years (ts : List ℚ) : ℚ := (ts.getLastD 0 - ts.headD 0) / (365.25 * 24 * 3600)

/-- `avg = rets.mean()`. -/
def avg_ret (eq : List ℚ) : ℚ := (rets eq).sum / ((rets eq).length : ℚ)

/-- The sample variance behind `rets.std(ddof=1)`; `none` models the
`NaN` that `numpy` produces when fewer than two returns exist. -/
def sample_var (eq : List ℚ) : Option ℚ :=
  if 2 ≤ (rets eq).length then
    some ((((rets eq).map (fun r => (r - avg_ret eq) ^ 2)).sum) /
      (((rets eq).length : ℚ) - 1))
  else none

/-- `std = rets.std(ddof=1)` (`none` = `NaN`). -/
noncomputable def std_ret (eq : List ℚ) : Option ℝ :=
  (sample_var eq).map (fun v => Real.sqrt (v : ℝ))

/-- `trades_per_year = len(rets) / years if years > 0 else nan`. -/
def trades_per_year (eq ts : List ℚ) : Option ℚ :=
  if 0 < years ts then some (((rets eq).length : ℚ) / years ts) else none

/-- `ann_ret = (1 + total_ret) ** (1 / years) - 1 if years > 0 else nan`. -/
noncomputable def ann_ret (eq ts : List ℚ) : Option ℝ :=
  if 0 < years ts then
    some ((1 + (total_ret eq : ℝ)) ^ ((1 : ℝ) / (years ts : ℝ)) - 1)
  else none

/-- `sharpe = (avg / std) * sqrt(trades_per_year) if std > 0 else nan`;
a `NaN` standard deviation or trade frequency propagates to `none`. -/
noncomputable def sharpe (eq ts : List ℚ) : Option ℝ :=
  match std_ret eq with
  | some s =>
    if 0 < s then
      (trades_per_year eq ts).map
        (fun t => ((avg_ret eq : ℝ) / s) * Real.sqrt (t : ℝ))
    else none
  | none => none

def runningMaxAux (m : ℚ) : List ℚ → List ℚ
  | [] => []
  | x :: xs => max m x :: runningMaxAux (max m x) xs

/-- `peak = np.maximum.accumulate(eq)`. -/
def runningMax (l : List ℚ) : List ℚ :=
  match l with
  | [] => []
  | x :: xs => x :: runningMaxAux x xs

/-- `dd = (eq - peak) / peak`. -/
def drawdowns (eq : List ℚ) : List ℚ :=
  List.zipWith (fun e p => (e - p) / p) eq (runningMax eq)

/-- `max_dd = dd.min()`. -/
def max_dd (eq : List ℚ) : ℚ := listMin (drawdowns eq)

/-- `calmar = ann_ret / abs(max_dd) if max_dd < 0 else nan`. -/
noncomputable def calmar (eq ts : List ℚ) : Option ℝ :=
  if max_dd eq < 0 then (ann_ret eq ts).map (fun a => a / |(max_dd eq : ℝ)|)
  else none

/-! Concrete configurations and price series used to exercise the
development on explicit inputs.  Each group of defs serves one example:
small `LOOKBACK`/`RETTEST_LOOKAHEAD` values keep the windows readable
while exercising the same code paths as the source constants. -/

def cfgC1 : Config := ⟨1, 1, 10000, 1 / 100, 2⟩

def dfC1 : List Bar :=
  [⟨0, 100, 90, 90⟩, ⟨1, 100, 90, 90⟩, ⟨2, 100, 95, 100⟩, ⟨3, 96, 80, 85⟩]

def sigC1 : ℕ → Option Dir := fun i => if i = 2 then some Dir.buy else none

def stC1 : BTState := ⟨10000, [10000], [1], 0, 0, none⟩

def cfgC2 : Config := ⟨1, 2, 10000, 1 / 100, 2⟩

def dfC2 : List Bar :=
  [⟨0, 100, 90, 90⟩, ⟨1, 120, 110, 120⟩, ⟨2, 107, 105, 106⟩,
   ⟨3, 115, 20, 50⟩, ⟨4, 50, 40, 45⟩]

def cfgC3 : Config := ⟨1, 1, 10000, 1 / 100, 2⟩

def dfC3 : List Bar :=
  [⟨0, 100, 90, 90⟩, ⟨1, 100, 90, 90⟩, ⟨2, 100, 95, 100⟩, ⟨3, 130, 80, 125⟩]

def sigC3 : ℕ → Option Dir := fun i => if i = 2 then some Dir.buy else none

def stC3 : BTState := ⟨10000, [10000], [1], 0, 0, none⟩

def cfgC4 : Config := ⟨1, 1, 10000, 1 / 100, 2⟩

def dfC4 : List Bar :=
  [⟨0, 100, 90, 90⟩, ⟨1, 100, 90, 90⟩, ⟨2, 100, 95, 100⟩, ⟨3, 115, 95, 110⟩]

def sigC4 : ℕ → Option Dir := fun i => if i = 2 then some Dir.buy else none

def stC4 : BTState := ⟨10000, [10000], [1], 0, 0, none⟩

def cfgC5 : Config := ⟨1, 1, 10000, 1 / 100, 2⟩

def dfC5 : List Bar :=
  [⟨0, 100, 90, 90⟩, ⟨1, 100, 90, 90⟩, ⟨2, 100, 95, 100⟩, ⟨3, 115, 95, 110⟩]

def sigC5 : ℕ → Option Dir := fun i => if i = 2 then some Dir.buy else none

def cfgC6 : Config := ⟨1, 2, 10000, 1 / 100, 2⟩

def dfC6 : List Bar :=
  [⟨0, 100, 90, 90⟩, ⟨1, 120, 110, 120⟩, ⟨2, 107, 105, 106⟩,
   ⟨3, 115, 20, 50⟩, ⟨4, 50, 40, 45⟩]

def cfgC7 : Config := ⟨1, 1, 10000, 1 / 100, 2⟩

def dfC7 : List Bar :=
  [⟨0, 100, 90, 90⟩, ⟨1, 100, 90, 90⟩, ⟨2, 102, 98, 100⟩,
   ⟨3, 110, 100, 105⟩, ⟨4, 90, 80, 85⟩]

def sigC7 : ℕ → Option Dir :=
  fun i => if i = 2 ∨ i = 3 then some Dir.buy else none

def stC7 : BTState := ⟨10000, [10000], [1], 0, 0, none⟩

def cfgC8 : Config := ⟨1, 1, 10000, 1 / 100, 2⟩

def dfC8 : List Bar := [⟨0, 100, 90, 90⟩, ⟨1, 100, 90, 95⟩]

def eqC9 : List ℚ := [10000, 10200]

def tsC9 : List ℚ := [0, 31557600]

def cfgC10 : Config := ⟨1, 1, 10000, 1 / 100, 2⟩

def dfC10 : List Bar :=
  [⟨0, 100, 90, 90⟩, ⟨1, 100, 90, 90⟩, ⟨2, 100, 95, 100⟩, ⟨3, 96, 80, 85⟩]

def sigC10 : ℕ → Option Dir := fun i => if i = 2 then some Dir.buy else none

theorem scanFirst_eq_some {β : Type} (f : ℕ → Option β) :
    ∀ (n s j : ℕ) (b : β), scanFirst f s n = some (j, b) →
      s ≤ j ∧ j < s + n ∧ f j = some b ∧ ∀ k, s ≤ k → k < j → f k = none := by
  intro n
  induction n with
  | zero => intro s j b h; simp [scanFirst] at h
  | succ n ih =>
    intro s j b h
    rw [scanFirst] at h
    cases hf : f s with
    | some b' =>
      rw [hf] at h
      simp only [Option.some.injEq, Prod.mk.injEq] at h
      obtain ⟨hj, hb⟩ := h
      subst hj; subst hb
      exact ⟨le_refl s, by omega, hf, fun k hk1 hk2 => absurd hk1 (by omega)⟩
    | none =>
      rw [hf] at h
      obtain ⟨h1, h2, h3, h4⟩ := ih (s + 1) j b h
      refine ⟨by omega, by omega, h3, ?_⟩
      intro k hk1 hk2
      rcases Nat.lt_or_ge k (s + 1) with h' | h'
      · have hks : k = s := by omega
        rw [hks]; exact hf
      · exact h4 k h' hk2

theorem scanFirst_eq_none {β : Type} (f : ℕ → Option β) :
    ∀ (n s : ℕ), (∀ k, s ≤ k → k < s + n → f k = none) → scanFirst f s n = none := by
  intro n
  induction n with
  | zero => intro s _; rfl
  | succ n ih =>
    intro s hall
    rw [scanFirst]
    rw [hall s (le_refl s) (by omega)]
    exact ih (s + 1) (fun k hk1 hk2 => hall k (by omega) (by omega))

theorem foldl_min_le (xs : List ℚ) : ∀ x : ℚ, xs.foldl min x ≤ x := by
  induction xs with
  | nil => intro x; exact le_refl x
  | cons y ys ih =>
    intro x
    rw [List.foldl_cons]
    exact le_trans (ih (min x y)) (min_le_left x y)

theorem listMin_cons_le (x : ℚ) (xs : List ℚ) : listMin (x :: xs) ≤ x := by
  simpa [listMin] using foldl_min_le xs x

theorem foldl_applySignal_origin (cfg : Config) (df : List Bar) :
    ∀ (l : List ℕ) (m : ℕ → Option Dir) (j : ℕ) (d : Dir),
      (l.foldl (applySignal cfg df) m) j = some d →
      m j = some d ∨ ∃ i ∈ l, signalAt cfg df i = some (j, d) := by
  intro l
  induction l with
  | nil => intro m j d h; exact Or.inl h
  | cons a l' ih =>
    intro m j d h
    rw [List.foldl_cons] at h
    rcases ih _ j d h with h' | ⟨i, hi, hs⟩
    · cases hsa : signalAt cfg df a with
      | none => simp only [applySignal, hsa] at h'; exact Or.inl h'
      | some p =>
        obtain ⟨j', d'⟩ := p
        simp only [applySignal, hsa] at h'
        by_cases hj : j = j'
        · subst hj
          rw [Function.update_same] at h'
          refine Or.inr ⟨a, List.mem_cons_self a l', ?_⟩
          rw [hsa]
          rw [Option.some.inj h']
        · rw [Function.update_noteq hj] at h'
          exact Or.inl h'
    · exact Or.inr ⟨i, List.mem_cons_of_mem a hi, hs⟩

theorem foldl_applySignal_no_write (cfg : Config) (df : List Bar) :
    ∀ (l : List ℕ) (m : ℕ → Option Dir) (j : ℕ),
      (∀ i' ∈ l, ∀ d', signalAt cfg df i' ≠ some (j, d')) →
      (l.foldl (applySignal cfg df) m) j = m j := by
  intro l
  induction l with
  | nil => intro m j _; rfl
  | cons a l' ih =>
    intro m j hno
    rw [List.foldl_cons]
    rw [ih _ j (fun i' hi' => hno i' (List.mem_cons_of_mem a hi'))]
    cases hsa : signalAt cfg df a with
    | none => simp only [applySignal, hsa]
    | some p =>
      obtain ⟨j', d'⟩ := p
      have hj : j ≠ j' := by
        intro hjj
        exact hno a (List.mem_cons_self a l') d' (by rw [hsa, hjj])
      simp only [applySignal, hsa]
      rw [Function.update_noteq hj]

theorem pairwise_lt_range'_one : ∀ (n s : ℕ), (List.range' s n).Pairwise (· < ·) := by
  intro n
  induction n with
  | zero => intro s; simp
  | succ n ih =>
    intro s
    rw [List.range'_succ]
    refine List.Pairwise.cons ?_ (ih (s + 1))
    intro x hx
    have := (List.mem_range'_1).mp hx
    omega

theorem foldl_applySignal_last_writer (cfg : Config) (df : List Bar) :
    ∀ (l : List ℕ), l.Pairwise (· < ·) →
      ∀ (m : ℕ → Option Dir) (i2 j : ℕ) (d2 : Dir), i2 ∈ l →
        signalAt cfg df i2 = some (j, d2) →
        (∀ i' ∈ l, i2 < i' → ∀ d', signalAt cfg df i' ≠ some (j, d')) →
        (l.foldl (applySignal cfg df) m) j = some d2 := by
  intro l
  induction l with
  | nil => intro _ m i2 j d2 hmem; exact absurd hmem (List.not_mem_nil i2)
  | cons a l' ih =>
    intro hpw m i2 j d2 hmem hs2 hno
    obtain ⟨hlt, hpw'⟩ := List.pairwise_cons.mp hpw
    rw [List.foldl_cons]
    rcases List.mem_cons.mp hmem with rfl | hmem'
    · rw [foldl_applySignal_no_write cfg df l' _ j ?later]
      · simp only [applySignal, hs2]
        rw [Function.update_same]
      case later =>
        intro i' hi' d'
        exact hno i' (List.mem_cons_of_mem i2 hi') (hlt i' hi') d'
    · exact ih hpw' _ i2 j d2 hmem' hs2
        (fun i' hi' hlt' d' => hno i' (List.mem_cons_of_mem a hi') hlt' d')

theorem step_delta (cfg : Config) (df : List Bar) (sig : ℕ → Option Dir)
    (st st' : BTState) (i : ℕ) (h : step cfg df sig st i = some st') :
    st'.wins + st'.losses =
      st.wins + st.losses + (if resolvedAt cfg df sig i then 1 else 0) ∧
    st'.equity.length = st.equity.length + (if isSignalBar sig i then 1 else 0) ∧
    st'.times.length = st.times.length + (if isSignalBar sig i then 1 else 0) ∧
    st'.balance = st.balance *
      ((1 + cfg.RR * cfg.RISK_PER_TRADE) ^ (st'.wins - st.wins) *
        (1 - cfg.RISK_PER_TRADE) ^ (st'.losses - st.losses)) ∧
    st.wins ≤ st'.wins ∧ st.losses ≤ st'.losses ∧
    (st'.equity = st.equity ∨ st'.equity = st.equity ++ [st'.balance]) ∧
    (st'.times = st.times ∨ ∃ t, st'.times = st.times ++ [t]) := by
  cases hsig : sig i with
  | none =>
    rw [step, hsig] at h
    simp only [Option.some.injEq] at h
    subst h
    refine ⟨by simp [resolvedAt, hsig], by simp [isSignalBar, hsig],
      by simp [isSignalBar, hsig], by simp, le_refl _, le_refl _, Or.inl rfl, Or.inl rfl⟩
  | some d =>
    rw [step, hsig] at h
    simp only at h
    cases hres : resolveScan df d (stopOf cfg df i d) (targetOf cfg df i d) i with
    | some p =>
      obtain ⟨j, isStop⟩ := p
      rw [hres] at h
      simp only [Option.some.injEq] at h
      subst h
      cases isStop with
      | true =>
        refine ⟨by simp [resolvedAt, hsig, hres]; try omega, by simp [isSignalBar, hsig],
          by simp [isSignalBar, hsig], ?_, le_refl _, by simp, Or.inr rfl,
          Or.inr ⟨_, rfl⟩⟩
        simp only [if_true]
        have e1 : st.wins - st.wins = 0 := Nat.sub_self _
        have e2 : st.losses + 1 - st.losses = 1 := by omega
        rw [e1, e2, pow_zero, pow_one, one_mul]
        ring
      | false =>
        refine ⟨by simp [resolvedAt, hsig, hres]; try omega, by simp [isSignalBar, hsig],
          by simp [isSignalBar, hsig], ?_, by simp, le_refl _, Or.inr rfl,
          Or.inr ⟨_, rfl⟩⟩
        simp only [Bool.false_eq_true, if_false]
        have e1 : st.wins + 1 - st.wins = 1 := by omega
        have e2 : st.losses - st.losses = 0 := Nat.sub_self _
        rw [e1, e2, pow_zero, pow_one, mul_one]
        ring
    | none =>
      rw [hres] at h
      simp only at h
      by_cases hw : i + 1 < df.length
      · rw [if_pos hw] at h
        simp only [Option.some.injEq] at h
        subst h
        refine ⟨by simp [resolvedAt, hsig, hres], by simp [isSignalBar, hsig],
          by simp [isSignalBar, hsig], by simp, le_refl _, le_refl _,
          Or.inr rfl, Or.inr ⟨_, rfl⟩⟩
      · rw [if_neg hw] at h
        cases hlj : st.lastJ with
        | none => rw [hlj] at h; simp at h
        | some j0 =>
          rw [hlj] at h
          simp only [Option.some.injEq] at h
          subst h
          refine ⟨by simp [resolvedAt, hsig, hres], by simp [isSignalBar, hsig],
            by simp [isSignalBar, hsig], by simp, le_refl _, le_refl _,
            Or.inr rfl, Or.inr ⟨_, rfl⟩⟩

theorem foldlM_step_delta (cfg : Config) (df : List Bar) (sig : ℕ → Option Dir) :
    ∀ (l : List ℕ) (st st' : BTState),
      l.foldlM (step cfg df sig) st = some st' →
      st'.wins + st'.losses =
        st.wins + st.losses + (l.filter (fun i => resolvedAt cfg df sig i)).length ∧
      st'.equity.length =
        st.equity.length + (l.filter (fun i => isSignalBar sig i)).length ∧
      st'.times.length =
        st.times.length + (l.filter (fun i => isSignalBar sig i)).length ∧
      st'.balance = st.balance *
        ((1 + cfg.RR * cfg.RISK_PER_TRADE) ^ (st'.wins - st.wins) *
          (1 - cfg.RISK_PER_TRADE) ^ (st'.losses - st.losses)) ∧
      st.wins ≤ st'.wins ∧ st.losses ≤ st'.losses ∧
      (st.equity ≠ [] → st'.equity ≠ [] ∧ st'.equity.headD 0 = st.equity.headD 0) ∧
      (st.times ≠ [] → st'.times ≠ [] ∧ st'.times.headD 0 = st.times.headD 0) := by
  intro l
  induction l with
  | nil =>
    intro st st' h
    simp only [List.foldlM_nil] at h
    cases h
    refine ⟨by simp, by simp, by simp, by simp, le_refl _, le_refl _,
      fun hne => ⟨hne, rfl⟩, fun hne => ⟨hne, rfl⟩⟩
  | cons a l' ih =>
    intro st st' h
    rw [List.foldlM_cons] at h
    cases hst1 : step cfg df sig st a with
    | none => rw [hst1] at h; simp at h
    | some st1 =>
      rw [hst1] at h
      simp only [Option.bind_eq_bind, Option.some_bind] at h
      obtain ⟨hc1, he1, ht1, hb1, hw1, hl1, hde1, hdt1⟩ :=
        step_delta cfg df sig st st1 a hst1
      obtain ⟨hc2, he2, ht2, hb2, hw2, hl2, hhe2, hht2⟩ := ih st1 st' h
      refine ⟨?_, ?_, ?_, ?_, le_trans hw1 hw2, le_trans hl1 hl2, ?_, ?_⟩
      · rw [List.filter_cons]
        by_cases hra : resolvedAt cfg df sig a
        · rw [if_pos (by simpa using hra)]
          simp only [List.length_cons]
          rw [if_pos hra] at hc1
          omega
        · rw [if_neg (by simpa using hra)]
          rw [if_neg hra] at hc1
          omega
      · rw [List.filter_cons]
        by_cases hsb : isSignalBar sig a
        · rw [if_pos (by simpa using hsb)]
          simp only [List.length_cons]
          rw [if_pos hsb] at he1
          omega
        · rw [if_neg (by simpa using hsb)]
          rw [if_neg hsb] at he1
          omega
      · rw [List.filter_cons]
        by_cases hsb : isSignalBar sig a
        · rw [if_pos (by simpa using hsb)]
          simp only [List.length_cons]
          rw [if_pos hsb] at ht1
          omega
        · rw [if_neg (by simpa using hsb)]
          rw [if_neg hsb] at ht1
          omega
      · rw [hb2, hb1]
        have hwsum : st'.wins - st.wins = (st1.wins - st.wins) + (st'.wins - st1.wins) := by
          omega
        have hlsum : st'.losses - st.losses =
            (st1.losses - st.losses) + (st'.losses - st1.losses) := by
          omega
        rw [hwsum, hlsum, pow_add, pow_add]
        ring
      · intro hne
        have h1 : st1.equity ≠ [] ∧ st1.equity.headD 0 = st.equity.headD 0 := by
          rcases hde1 with hsame | happ
          · rw [hsame]; exact ⟨hne, rfl⟩
          · rw [happ]
            constructor
            · simp
            · cases hcs : st.equity with
              | nil => exact absurd hcs hne
              | cons y ys => simp [hcs]
        obtain ⟨h1ne, h1hd⟩ := h1
        obtain ⟨h2ne, h2hd⟩ := hhe2 h1ne
        exact ⟨h2ne, by rw [h2hd, h1hd]⟩
      · intro hne
        have h1 : st1.times ≠ [] ∧ st1.times.headD 0 = st.times.headD 0 := by
          rcases hdt1 with hsame | ⟨t, happ⟩
          · rw [hsame]; exact ⟨hne, rfl⟩
          · rw [happ]
            constructor
            · simp
            · cases hcs : st.times with
              | nil => exact absurd hcs hne
              | cons y ys => simp [hcs]
        obtain ⟨h1ne, h1hd⟩ := h1
        obtain ⟨h2ne, h2hd⟩ := hht2 h1ne
        exact ⟨h2ne, by rw [h2hd, h1hd]⟩

theorem step_pos (cfg : Config) (df : List Bar) (sig : ℕ → Option Dir)
    (h0 : 0 < cfg.RISK_PER_TRADE) (h1 : cfg.RISK_PER_TRADE < 1) (h2 : 0 < cfg.RR)
    (st st' : BTState) (i : ℕ) (h : step cfg df sig st i = some st')
    (hb : 0 < st.balance) (he : ∀ x ∈ st.equity, 0 < x) :
    0 < st'.balance ∧ ∀ x ∈ st'.equity, 0 < x := by
  obtain ⟨-, -, -, hbal, -, -, heq, -⟩ := step_delta cfg df sig st st' i h
  have hA : (0 : ℚ) < 1 + cfg.RR * cfg.RISK_PER_TRADE := by
    have := mul_pos h2 h0
    linarith
  have hB : (0 : ℚ) < 1 - cfg.RISK_PER_TRADE := by linarith
  have hb' : 0 < st'.balance := by
    rw [hbal]
    exact mul_pos hb (mul_pos (pow_pos hA _) (pow_pos hB _))
  refine ⟨hb', ?_⟩
  rcases heq with hsame | happ
  · rw [hsame]; exact he
  · rw [happ]
    intro x hx
    rcases List.mem_append.mp hx with hx1 | hx2
    · exact he x hx1
    · rw [List.mem_singleton.mp hx2]
      exact hb'

theorem foldlM_step_pos (cfg : Config) (df : List Bar) (sig : ℕ → Option Dir)
    (h0 : 0 < cfg.RISK_PER_TRADE) (h1 : cfg.RISK_PER_TRADE < 1) (h2 : 0 < cfg.RR) :
    ∀ (l : List ℕ) (st st' : BTState),
      l.foldlM (step cfg df sig) st = some st' →
      0 < st.balance → (∀ x ∈ st.equity, 0 < x) →
      0 < st'.balance ∧ ∀ x ∈ st'.equity, 0 < x := by
  intro l
  induction l with
  | nil =>
    intro st st' h hb he
    simp only [List.foldlM_nil] at h
    cases h
    exact ⟨hb, he⟩
  | cons a l' ih =>
    intro st st' h hb he
    rw [List.foldlM_cons] at h
    cases hst1 : step cfg df sig st a with
    | none => rw [hst1] at h; simp at h
    | some st1 =>
      rw [hst1] at h
      simp only [Option.bind_eq_bind, Option.some_bind] at h
      obtain ⟨hb1, he1⟩ := step_pos cfg df sig h0 h1 h2 st st1 a hst1 hb he
      exact ih st1 st' h hb1 he1

/-- C1: at a signal bar `i` the simulated trade enters at `close[i]`:
its stop-loss is the trailing-window low (buy) resp. high (sell) over
`[i-LOOKBACK, i)` — the very `zone_low`/`zone_high` of detection — its
take-profit is `entry + (entry - stop)*RR` (buy) resp.
`entry - (stop - entry)*RR` (sell), and when the trade resolves at bar
`j` the balance moves by exactly `risk = balance_at_entry *
RISK_PER_TRADE` on a loss and by `risk * RR` on a win; the risk is
computed from the balance held when the trade was entered and is never
re-evaluated. -/
theorem trade_entry_levels_and_settlement (cfg : Config) (df : List Bar)
    (sig : ℕ → Option Dir) (st : BTState) (i j : ℕ) (d : Dir) (isStop : Bool)
    (hs : sig i = some d)
    (hr : resolveScan df d (stopOf cfg df i d) (targetOf cfg df i d) i =
      some (j, isStop)) :
    stopOf cfg df i Dir.buy = zone_low cfg df i ∧
    stopOf cfg df i Dir.sell = zone_high cfg df i ∧
    targetOf cfg df i Dir.buy =
      closeAt df i + (closeAt df i - stopOf cfg df i Dir.buy) * cfg.RR ∧
    targetOf cfg df i Dir.sell =
      closeAt df i - (stopOf cfg df i Dir.sell - closeAt df i) * cfg.RR ∧
    step cfg df sig st i = some
      ⟨(if isStop then st.balance - st.balance * cfg.RISK_PER_TRADE
        else st.balance + st.balance * cfg.RISK_PER_TRADE * cfg.RR),
       st.equity ++ [if isStop then st.balance - st.balance * cfg.RISK_PER_TRADE
        else st.balance + st.balance * cfg.RISK_PER_TRADE * cfg.RR],
       st.times ++ [timeAt df j],
       (if isStop then st.wins else st.wins + 1),
       (if isStop then st.losses + 1 else st.losses),
       some j⟩ := by
  refine ⟨rfl, rfl, rfl, rfl, ?_⟩
  rw [step, hs]
  simp only
  rw [hr]

/-- Witness for C1: on `dfC1` the signal at bar 2 is a buy with stop 90
(the window low of bar 1), target 120, resolving as a loss at bar 3;
the balance falls from 10000 by exactly the 1% risk. -/
theorem trade_entry_levels_and_settlement_witness :
    sigC1 2 = some Dir.buy ∧
    resolveScan dfC1 Dir.buy (stopOf cfgC1 dfC1 2 Dir.buy)
      (targetOf cfgC1 dfC1 2 Dir.buy) 2 = some (3, true) ∧
    (stopOf cfgC1 dfC1 2 Dir.buy = zone_low cfgC1 dfC1 2 ∧
     stopOf cfgC1 dfC1 2 Dir.sell = zone_high cfgC1 dfC1 2 ∧
     targetOf cfgC1 dfC1 2 Dir.buy =
       closeAt dfC1 2 + (closeAt dfC1 2 - stopOf cfgC1 dfC1 2 Dir.buy) * cfgC1.RR ∧
     targetOf cfgC1 dfC1 2 Dir.sell =
       closeAt dfC1 2 - (stopOf cfgC1 dfC1 2 Dir.sell - closeAt dfC1 2) * cfgC1.RR ∧
     step cfgC1 dfC1 sigC1 stC1 2 = some
       ⟨(if true then stC1.balance - stC1.balance * cfgC1.RISK_PER_TRADE
         else stC1.balance + stC1.balance * cfgC1.RISK_PER_TRADE * cfgC1.RR),
        stC1.equity ++ [if true then stC1.balance - stC1.balance * cfgC1.RISK_PER_TRADE
         else stC1.balance + stC1.balance * cfgC1.RISK_PER_TRADE * cfgC1.RR],
        stC1.times ++ [timeAt dfC1 3],
        (if true then stC1.wins else stC1.wins + 1),
        (if true then stC1.losses + 1 else stC1.losses),
        some 3⟩) :=
  ⟨by decide, by decide,
   trade_entry_levels_and_settlement cfgC1 dfC1 sigC1 stC1 2 3 Dir.buy true
     (by decide) (by decide)⟩

/-- C3: stop-priority tie-break.  If the trade opened at signal bar `i`
resolves at bar `j` and at `j` both the stop condition and the target
condition hold, the outcome flag is a loss: the balance decreases by the
risk amount and the loss counter increments, never the win counter. -/
theorem stop_priority_tie_break (cfg : Config) (df : List Bar)
    (sig : ℕ → Option Dir) (st : BTState) (i j : ℕ) (d : Dir) (b : Bool)
    (hs : sig i = some d)
    (hr : resolveScan df d (stopOf cfg df i d) (targetOf cfg df i d) i = some (j, b))
    (hstop : stopHit df d (stopOf cfg df i d) j = true)
    (htar : targetHit df d (targetOf cfg df i d) j = true) :
    b = true ∧
    step cfg df sig st i = some
      ⟨st.balance - st.balance * cfg.RISK_PER_TRADE,
       st.equity ++ [st.balance - st.balance * cfg.RISK_PER_TRADE],
       st.times ++ [timeAt df j], st.wins, st.losses + 1, some j⟩ := by
  rw [resolveScan] at hr
  have hbar := (scanFirst_eq_some _ _ _ _ _ hr).2.2.1
  rw [barOutcome, if_pos hstop] at hbar
  have hb : b = true := (Option.some.inj hbar).symm
  subst hb
  refine ⟨rfl, ?_⟩
  rw [step, hs]
  simp only
  rw [resolveScan, hr]
  rfl

/-- Witness for C3: bar 3 of `dfC3` satisfies both the stop condition
(`low 80 ≤ 90`) and the target condition (`close 125 ≥ 120`) for the
buy trade entered at bar 2; the simulator books a loss. -/
theorem stop_priority_tie_break_witness :
    sigC3 2 = some Dir.buy ∧
    resolveScan dfC3 Dir.buy (stopOf cfgC3 dfC3 2 Dir.buy)
      (targetOf cfgC3 dfC3 2 Dir.buy) 2 = some (3, true) ∧
    stopHit dfC3 Dir.buy (stopOf cfgC3 dfC3 2 Dir.buy) 3 = true ∧
    targetHit dfC3 Dir.buy (targetOf cfgC3 dfC3 2 Dir.buy) 3 = true ∧
    (true = true ∧
     step cfgC3 dfC3 sigC3 stC3 2 = some
       ⟨stC3.balance - stC3.balance * cfgC3.RISK_PER_TRADE,
        stC3.equity ++ [stC3.balance - stC3.balance * cfgC3.RISK_PER_TRADE],
        stC3.times ++ [timeAt dfC3 3], stC3.wins, stC3.losses + 1, some 3⟩) :=
  ⟨by decide, by decide, by decide,
   by norm_num [targetHit, targetOf, stopOf, windowSlice, listMax, listMin,
     closeAt, barAt, cfgC3, dfC3, List.getD],
   stop_priority_tie_break cfgC3 dfC3 sigC3 stC3 2 3 Dir.buy true
     (by decide) (by decide) (by decide)
     (by norm_num [targetHit, targetOf, stopOf, windowSlice, listMax, listMin,
       closeAt, barAt, cfgC3, dfC3, List.getD])⟩

/-- C2: the detector scans exactly the origin indices in
`[LOOKBACK, N-1-RETTEST_LOOKAHEAD]`; an upward breakout at `i`
(`close[i] > zone_high`) writes `buy` at the first `j` in
`(i, i+RETTEST_LOOKAHEAD]` with `low[j] ≤ zone_high`, a downward
breakout symmetrically writes `sell` at the first `j` with
`high[j] ≥ zone_low`; no write lands outside `(i, i+RETTEST_LOOKAHEAD]`,
a breakout without a retest in the window contributes nothing, and every
stored signal originates from an in-range breakout. -/
theorem detector_window_and_first_retest (cfg : Config) (df : List Bar) :
    (∀ i, i ∈ detectRange cfg df ↔
      cfg.LOOKBACK ≤ i ∧ i + cfg.RETTEST_LOOKAHEAD < df.length) ∧
    (∀ i j d, signalAt cfg df i = some (j, d) →
      i < j ∧ j ≤ i + cfg.RETTEST_LOOKAHEAD) ∧
    (∀ i j, signalAt cfg df i = some (j, Dir.buy) →
      zone_high cfg df i < closeAt df i ∧ lowAt df j ≤ zone_high cfg df i ∧
      ∀ k, i < k → k < j → ¬(lowAt df k ≤ zone_high cfg df i)) ∧
    (∀ i j, signalAt cfg df i = some (j, Dir.sell) →
      closeAt df i < zone_low cfg df i ∧ zone_low cfg df i ≤ highAt df j ∧
      ∀ k, i < k → k < j → ¬(zone_low cfg df i ≤ highAt df k)) ∧
    (∀ i, (∀ k ∈ List.range' (i + 1) cfg.RETTEST_LOOKAHEAD,
        ¬(lowAt df k ≤ zone_high cfg df i) ∧ ¬(zone_low cfg df i ≤ highAt df k)) →
      signalAt cfg df i = none) ∧
    (∀ j d, detect_breakout_retests cfg df j = some d →
      ∃ i, cfg.LOOKBACK ≤ i ∧ i + cfg.RETTEST_LOOKAHEAD < df.length ∧
        signalAt cfg df i = some (j, d)) := by
  refine ⟨?_, ?_, ?_, ?_, ?_, ?_⟩
  · intro i
    rw [detectRange, List.mem_range'_1]
    omega
  · intro i j d h
    rw [signalAt] at h
    split at h
    · obtain ⟨h1, h2, -, -⟩ := scanFirst_eq_some _ _ _ _ _ h
      omega
    · split at h
      · obtain ⟨h1, h2, -, -⟩ := scanFirst_eq_some _ _ _ _ _ h
        omega
      · exact absurd h (by simp)
  · intro i j h
    rw [signalAt] at h
    split at h
    · rename_i hbrk
      obtain ⟨h1, -, h3, h4⟩ := scanFirst_eq_some _ _ _ _ _ h
      refine ⟨hbrk, ?_, ?_⟩
      · by_cases hc : lowAt df j ≤ zone_high cfg df i
        · exact hc
        · rw [if_neg hc] at h3; cases h3
      · intro k hk1 hk2 hc
        have := h4 k (by omega) hk2
        rw [if_pos hc] at this
        cases this
    · split at h
      · obtain ⟨-, -, h3, -⟩ := scanFirst_eq_some _ _ _ _ _ h
        by_cases hc : zone_low cfg df i ≤ highAt df j
        · rw [if_pos hc] at h3; cases h3
        · rw [if_neg hc] at h3; cases h3
      · exact absurd h (by simp)
  · intro i j h
    rw [signalAt] at h
    split at h
    · obtain ⟨-, -, h3, -⟩ := scanFirst_eq_some _ _ _ _ _ h
      by_cases hc : lowAt df j ≤ zone_high cfg df i
      · rw [if_pos hc] at h3; cases h3
      · rw [if_neg hc] at h3; cases h3
    · split at h
      · rename_i hnb hbrk
        obtain ⟨h1, -, h3, h4⟩ := scanFirst_eq_some _ _ _ _ _ h
        refine ⟨hbrk, ?_, ?_⟩
        · by_cases hc : zone_low cfg df i ≤ highAt df j
          · exact hc
          · rw [if_neg hc] at h3; cases h3
        · intro k hk1 hk2 hc
          have := h4 k (by omega) hk2
          rw [if_pos hc] at this
          cases this
      · exact absurd h (by simp)
  · intro i hno
    rw [signalAt]
    split
    · refine scanFirst_eq_none _ _ _ ?_
      intro k hk1 hk2
      rw [if_neg (hno k (List.mem_range'_1.mpr ⟨hk1, hk2⟩)).1]
    · split
      · refine scanFirst_eq_none _ _ _ ?_
        intro k hk1 hk2
        rw [if_neg (hno k (List.mem_range'_1.mpr ⟨hk1, hk2⟩)).2]
      · rfl
  · intro j d h
    rw [detect_breakout_retests] at h
    rcases foldl_applySignal_origin cfg df _ _ j d h with h0 | ⟨i, hi, hs⟩
    · cases h0
    · rw [detectRange] at hi
      obtain ⟨hb1, hb2⟩ := List.mem_range'_1.mp hi
      exact ⟨i, by omega, by omega, hs⟩

/-- Witness for C2: on `dfC2` bar 1 breaks out upward and retests at
bar 3 (inside `(1, 3]`), bar 2 breaks out downward and also retests at
bar 3; the stored signal at bar 3 originates from an in-range breakout. -/
theorem detector_window_and_first_retest_witness :
    signalAt cfgC2 dfC2 1 = some (3, Dir.buy) ∧
    (1 < 3 ∧ 3 ≤ 1 + cfgC2.RETTEST_LOOKAHEAD) ∧
    detect_breakout_retests cfgC2 dfC2 3 = some Dir.sell ∧
    (∃ i, cfgC2.LOOKBACK ≤ i ∧ i + cfgC2.RETTEST_LOOKAHEAD < dfC2.length ∧
      signalAt cfgC2 dfC2 i = some (3, Dir.sell)) :=
  ⟨by decide,
   (detector_window_and_first_retest cfgC2 dfC2).2.1 1 3 Dir.buy (by decide),
   by decide,
   (detector_window_and_first_retest cfgC2 dfC2).2.2.2.2.2 3 Dir.sell (by decide)⟩

/-- C6: last write wins.  When two processed origin bars `i1 < i2` both
select the same retest bar `j` and no other origin writes at `j`, the
signal finally stored at `j` is the one produced by the later origin
`i2`: the earlier write is simply overwritten, with no other conflict
resolution. -/
theorem last_write_wins (cfg : Config) (df : List Bar) (i1 i2 j : ℕ) (d1 d2 : Dir)
    (h1 : i1 ∈ detectRange cfg df) (h2 : i2 ∈ detectRange cfg df) (h12 : i1 < i2)
    (hs1 : signalAt cfg df i1 = some (j, d1))
    (hs2 : signalAt cfg df i2 = some (j, d2))
    (hother : ∀ i' ∈ detectRange cfg df, i' ≠ i1 → i' ≠ i2 → ∀ d',
      signalAt cfg df i' ≠ some (j, d')) :
    detect_breakout_retests cfg df j = some d2 := by
  rw [detect_breakout_retests]
  refine foldl_applySignal_last_writer cfg df (detectRange cfg df) ?_ _ i2 j d2
    h2 hs2 ?_
  · rw [detectRange]
    exact pairwise_lt_range'_one _ _
  · intro i' hi' hlt d'
    exact hother i' hi' (by omega) (by omega) d'

/-- Witness for C6: on `dfC6` origin bar 1 writes `buy` at bar 3 and
origin bar 2 writes `sell` at the same bar 3; the stored signal is the
later origin's `sell`. -/
theorem last_write_wins_witness :
    signalAt cfgC6 dfC6 1 = some (3, Dir.buy) ∧
    signalAt cfgC6 dfC6 2 = some (3, Dir.sell) ∧
    detect_breakout_retests cfgC6 dfC6 3 = some Dir.sell :=
  ⟨by decide, by decide,
   last_write_wins cfgC6 dfC6 1 2 3 Dir.buy Dir.sell (by decide) (by decide)
     (by decide) (by decide) (by decide) (by decide)⟩

theorem foldlM_step_no_signal (cfg : Config) (df : List Bar) (sig : ℕ → Option Dir) :
    ∀ (l : List ℕ) (st : BTState), (∀ i ∈ l, sig i = none) →
      l.foldlM (step cfg df sig) st = some st := by
  intro l
  induction l with
  | nil => intro st _; rfl
  | cons a l' ih =>
    intro st hall
    rw [List.foldlM_cons]
    have hs : step cfg df sig st a = some st := by
      rw [step, hall a (List.mem_cons_self a l')]
    rw [hs]
    simp only [Option.bind_eq_bind, Option.some_bind]
    exact ih st (fun i hi => hall i (List.mem_cons_of_mem a hi))

/-- C4 counterexample: on `dfC4` the buy trade opened at bar 2 never
resolves (its scan returns `none`), the balance and the win/loss
counters are indeed unchanged — but an equity point IS appended for the
unresolved trade: the emitted equity list has two entries, not one. -/
theorem unresolved_trade_appends_equity_point :
    sigC4 2 = some Dir.buy ∧
    resolveScan dfC4 Dir.buy (stopOf cfgC4 dfC4 2 Dir.buy)
      (targetOf cfgC4 dfC4 2 Dir.buy) 2 = none ∧
    ∃ res, backtest cfgC4 dfC4 sigC4 = some res ∧
      res.wins = 0 ∧ res.losses = 0 ∧ res.balance = cfgC4.INITIAL_BALANCE ∧
      res.equity.length = 2 := by
  refine ⟨by decide, ?_, ⟨10000, [10000, 10000], [1, 3], 0, 0⟩, ?_,
    by decide, by decide, by decide, by decide⟩
  · norm_num [resolveScan, scanFirst, barOutcome, stopHit, targetHit, stopOf,
      targetOf, windowSlice, listMin, listMax, closeAt, lowAt, highAt, barAt,
      cfgC4, dfC4, List.getD]
  · norm_num [backtest, btRange, step, resolveScan, scanFirst, barOutcome,
      stopHit, targetHit, stopOf, targetOf, windowSlice, listMin, listMax,
      closeAt, lowAt, highAt, timeAt, barAt, cfgC4, dfC4, sigC4, List.range',
      List.foldlM, List.getD]

/-- C4 (amended): when the resolution scan for the trade at signal bar
`i` exhausts the series, the balance and the win/loss counters are
unchanged, but an equity point holding the unchanged balance IS
appended: timestamped at the final bar when the scan window was
nonempty, at the previous trade's resolution bar when the window was
empty, and the simulator fails (`NameError`) when the window is empty
and no previous trade ever ran a scan. -/
theorem unresolved_trade_keeps_balance (cfg : Config) (df : List Bar)
    (sig : ℕ → Option Dir) (st : BTState) (i : ℕ) (d : Dir)
    (hs : sig i = some d)
    (hr : resolveScan df d (stopOf cfg df i d) (targetOf cfg df i d) i = none) :
    (i + 1 < df.length → step cfg df sig st i = some
      ⟨st.balance, st.equity ++ [st.balance],
       st.times ++ [timeAt df (df.length - 1)],
       st.wins, st.losses, some (df.length - 1)⟩) ∧
    (df.length ≤ i + 1 → ∀ j0, st.lastJ = some j0 → step cfg df sig st i = some
      ⟨st.balance, st.equity ++ [st.balance], st.times ++ [timeAt df j0],
       st.wins, st.losses, some j0⟩) ∧
    (df.length ≤ i + 1 → st.lastJ = none → step cfg df sig st i = none) := by
  refine ⟨?_, ?_, ?_⟩
  · intro hlt
    rw [step, hs]
    simp only
    rw [hr, if_pos hlt]
  · intro hge j0 hj0
    rw [step, hs]
    simp only
    rw [hr, if_neg (by omega), hj0]
  · intro hge hj0
    rw [step, hs]
    simp only
    rw [hr, if_neg (by omega), hj0]

/-- Witness for the amended C4: the unresolved trade of `dfC4` at bar 2
appends the unchanged balance with the final bar's timestamp. -/
theorem unresolved_trade_keeps_balance_witness :
    sigC4 2 = some Dir.buy ∧
    resolveScan dfC4 Dir.buy (stopOf cfgC4 dfC4 2 Dir.buy)
      (targetOf cfgC4 dfC4 2 Dir.buy) 2 = none ∧
    2 + 1 < dfC4.length ∧
    step cfgC4 dfC4 sigC4 stC4 2 = some
      ⟨stC4.balance, stC4.equity ++ [stC4.balance],
       stC4.times ++ [timeAt dfC4 (dfC4.length - 1)],
       stC4.wins, stC4.losses, some (dfC4.length - 1)⟩ :=
  ⟨by decide,
   by norm_num [resolveScan, scanFirst, barOutcome, stopHit, targetHit, stopOf,
     targetOf, windowSlice, listMin, listMax, closeAt, lowAt, highAt, barAt,
     cfgC4, dfC4, List.getD],
   by decide,
   (unresolved_trade_keeps_balance cfgC4 dfC4 sigC4 stC4 2 Dir.buy (by decide)
     (by norm_num [resolveScan, scanFirst, barOutcome, stopHit, targetHit,
       stopOf, targetOf, windowSlice, listMin, listMax, closeAt, lowAt, highAt,
       barAt, cfgC4, dfC4, List.getD])).1 (by decide)⟩

/-- C5 counterexample: on `dfC5` one trade is opened and never resolves;
the win and loss counts sum to 0 (the number of resolved trades), but
the emitted equity sequence has 2 entries, not `0 + 1`: its length
tracks opened trades, not resolved ones. -/
theorem equity_length_counts_mismatch :
    ∃ res, backtest cfgC5 dfC5 sigC5 = some res ∧
      res.wins + res.losses = 0 ∧ res.equity.length = 2 ∧
      res.equity.length ≠ res.wins + res.losses + 1 := by
  refine ⟨⟨10000, [10000, 10000], [1, 3], 0, 0⟩, ?_, by decide, by decide,
    by decide⟩
  norm_num [backtest, btRange, step, resolveScan, scanFirst, barOutcome,
    stopHit, targetHit, stopOf, targetOf, windowSlice, listMin, listMax,
    closeAt, lowAt, highAt, timeAt, barAt, cfgC5, dfC5, sigC5, List.range',
    List.foldlM, List.getD]

/-- C5 (amended): whenever `backtest` returns, the win and loss counts
sum to the number of RESOLVED trades, while the equity (and timestamp)
sequence length is the number of OPENED trades plus one; the extra
element is the seed point holding `INITIAL_BALANCE` at the timestamp of
bar `LOOKBACK`.  The claim's equality `length = resolved + 1` holds
exactly when every opened trade resolves. -/
theorem counts_and_equity_length (cfg : Config) (df : List Bar)
    (sig : ℕ → Option Dir) (res : BTResult) (h : backtest cfg df sig = some res) :
    res.wins + res.losses = resolvedCount cfg df sig ∧
    res.equity.length = openedCount cfg df sig + 1 ∧
    res.times.length = openedCount cfg df sig + 1 ∧
    res.equity.headD 0 = cfg.INITIAL_BALANCE ∧
    res.times.headD 0 = timeAt df cfg.LOOKBACK := by
  rw [backtest] at h
  by_cases hL : cfg.LOOKBACK < df.length
  · rw [if_pos hL] at h
    cases hf : (btRange cfg df).foldlM (step cfg df sig)
        ⟨cfg.INITIAL_BALANCE, [cfg.INITIAL_BALANCE], [timeAt df cfg.LOOKBACK],
         0, 0, none⟩ with
    | none => rw [hf] at h; cases h
    | some st =>
      rw [hf] at h
      simp only [Option.some.injEq] at h
      subst h
      obtain ⟨hc, he, ht, -, -, -, hhe, hht⟩ := foldlM_step_delta cfg df sig _ _ _ hf
      simp only at hc he ht hhe hht
      refine ⟨?_, ?_, ?_, ?_, ?_⟩
      · show st.wins + st.losses = resolvedCount cfg df sig
        rw [resolvedCount]
        omega
      · show st.equity.length = openedCount cfg df sig + 1
        rw [openedCount]
        simp only [List.length_cons, List.length_nil] at he
        omega
      · show st.times.length = openedCount cfg df sig + 1
        rw [openedCount]
        simp only [List.length_cons, List.length_nil] at ht
        omega
      · show st.equity.headD 0 = cfg.INITIAL_BALANCE
        simpa using (hhe (by simp)).2
      · show st.times.headD 0 = timeAt df cfg.LOOKBACK
        simpa using (hht (by simp)).2
  · rw [if_neg hL] at h
    cases h

/-- Witness for the amended C5: on `dfC5` one trade is opened and none
resolve; the counts, lengths and seed point are as stated. -/
theorem counts_and_equity_length_witness :
    backtest cfgC5 dfC5 sigC5 = some ⟨10000, [10000, 10000], [1, 3], 0, 0⟩ ∧
    ((⟨10000, [10000, 10000], [1, 3], 0, 0⟩ : BTResult).wins +
        (⟨10000, [10000, 10000], [1, 3], 0, 0⟩ : BTResult).losses =
      resolvedCount cfgC5 dfC5 sigC5 ∧
     (⟨10000, [10000, 10000], [1, 3], 0, 0⟩ : BTResult).equity.length =
      openedCount cfgC5 dfC5 sigC5 + 1 ∧
     (⟨10000, [10000, 10000], [1, 3], 0, 0⟩ : BTResult).times.length =
      openedCount cfgC5 dfC5 sigC5 + 1 ∧
     (⟨10000, [10000, 10000], [1, 3], 0, 0⟩ : BTResult).equity.headD 0 =
      cfgC5.INITIAL_BALANCE ∧
     (⟨10000, [10000, 10000], [1, 3], 0, 0⟩ : BTResult).times.headD 0 =
      timeAt dfC5 cfgC5.LOOKBACK) :=
  ⟨by norm_num [backtest, btRange, step, resolveScan, scanFirst, barOutcome,
     stopHit, targetHit, stopOf, targetOf, windowSlice, listMin, listMax,
     closeAt, lowAt, highAt, timeAt, barAt, cfgC5, dfC5, sigC5, List.range',
     List.foldlM, List.getD],
   counts_and_equity_length cfgC5 dfC5 sigC5 ⟨10000, [10000, 10000], [1, 3], 0, 0⟩
     (by norm_num [backtest, btRange, step, resolveScan, scanFirst, barOutcome,
       stopHit, targetHit, stopOf, targetOf, windowSlice, listMin, listMax,
       closeAt, lowAt, highAt, timeAt, barAt, cfgC5, dfC5, sigC5, List.range',
       List.foldlM, List.getD])⟩

/-- C7 counterexample: on `dfC7` the trade entered at bar 2 resolves at
bar 4, yet the signal at bar 3 — strictly inside the open interval
`(2, 4)` of that prior trade — still opens (and settles) a second trade:
both trades are counted as losses.  The simulator does not skip signal
bars overlapped by a prior open trade. -/
theorem overlapping_trade_opened :
    sigC7 2 = some Dir.buy ∧ sigC7 3 = some Dir.buy ∧
    resolveScan dfC7 Dir.buy (stopOf cfgC7 dfC7 2 Dir.buy)
      (targetOf cfgC7 dfC7 2 Dir.buy) 2 = some (4, true) ∧
    (2 < 3 ∧ 3 < 4) ∧
    ∃ res, backtest cfgC7 dfC7 sigC7 = some res ∧ res.losses = 2 ∧
      res.equity.length = 3 := by
  refine ⟨by decide, by decide, ?_, ⟨by decide, by decide⟩,
    ⟨9801, [10000, 9900, 9801], [1, 4, 4], 0, 2⟩, ?_, by decide, by decide⟩
  · norm_num [resolveScan, scanFirst, barOutcome, stopHit, targetHit, stopOf,
      targetOf, windowSlice, listMin, listMax, closeAt, lowAt, highAt, barAt,
      cfgC7, dfC7, List.getD]
  · norm_num [backtest, btRange, step, resolveScan, scanFirst, barOutcome,
      stopHit, targetHit, stopOf, targetOf, windowSlice, listMin, listMax,
      closeAt, lowAt, highAt, timeAt, barAt, cfgC7, dfC7, sigC7, List.range',
      List.foldlM, List.getD]

/-- C7 (amended): signals are consumed strictly sequentially (one
resolution scan completes before the next bar is examined), but the
simulator opens a trade at EVERY walked signal bar: nothing in the state
prevents a signal bar inside a prior trade's entry-to-resolution
interval from opening a trade, and a bar without a signal changes
nothing. -/
theorem every_signal_bar_opens_trade (cfg : Config) (df : List Bar)
    (sig : ℕ → Option Dir) (st st' : BTState) (i : ℕ) :
    (isSignalBar sig i = true → step cfg df sig st i = some st' →
      st'.equity.length = st.equity.length + 1) ∧
    (sig i = none → step cfg df sig st i = some st) := by
  constructor
  · intro hsb h
    obtain ⟨-, he, -⟩ := step_delta cfg df sig st st' i h
    rw [if_pos hsb] at he
    exact he
  · intro hn
    rw [step, hn]

/-- Witness for the amended C7: bar 3 of `dfC7` carries a signal and the
step at bar 3 appends one equity entry even though the trade entered at
bar 2 resolves only at bar 4. -/
theorem every_signal_bar_opens_trade_witness :
    isSignalBar sigC7 3 = true ∧
    step cfgC7 dfC7 sigC7 stC7 3 = some ⟨9900, [10000, 9900], [1, 4], 0, 1, some 4⟩ ∧
    (⟨9900, [10000, 9900], [1, 4], 0, 1, some 4⟩ : BTState).equity.length =
      stC7.equity.length + 1 :=
  ⟨by decide,
   by norm_num [step, resolveScan, scanFirst, barOutcome, stopHit, targetHit,
     stopOf, targetOf, windowSlice, listMin, listMax, closeAt, lowAt, highAt,
     timeAt, barAt, cfgC7, dfC7, sigC7, stC7, List.getD],
   (every_signal_bar_opens_trade cfgC7 dfC7 sigC7 stC7
     ⟨9900, [10000, 9900], [1, 4], 0, 1, some 4⟩ 3).1 (by decide)
     (by norm_num [step, resolveScan, scanFirst, barOutcome, stopHit, targetHit,
       stopOf, targetOf, windowSlice, listMin, listMax, closeAt, lowAt, highAt,
       timeAt, barAt, cfgC7, dfC7, sigC7, stC7, List.getD])⟩

/-- C8 counterexample: `dfC8` has 2 bars, fewer than
`LOOKBACK + RETTEST_LOOKAHEAD + 1 = 3`, yet neither detection nor
simulation raises any error: the detector returns an empty mapping and
the pipeline completes silently with the seed-only equity sequence and
zero trades, contradicting the claim that the condition is surfaced as
an input error. -/
theorem short_series_completes_silently :
    dfC8.length < cfgC8.LOOKBACK + cfgC8.RETTEST_LOOKAHEAD + 1 ∧
    (∀ j ∈ List.range dfC8.length, detect_breakout_retests cfgC8 dfC8 j = none) ∧
    backtest cfgC8 dfC8 (detect_breakout_retests cfgC8 dfC8) =
      some ⟨cfgC8.INITIAL_BALANCE, [cfgC8.INITIAL_BALANCE],
        [timeAt dfC8 cfgC8.LOOKBACK], 0, 0⟩ := by
  refine ⟨by decide, by decide, by decide⟩

/-- C8 (amended): a series shorter than
`LOOKBACK + RETTEST_LOOKAHEAD + 1` bars yields an empty signal mapping,
and the pipeline completes silently with the seed-only result whenever
the series still has more than `LOOKBACK` bars; only when the series has
at most `LOOKBACK` bars does the simulator fail (the `IndexError` on the
seed timestamp), and no configuration/input error is surfaced in either
case. -/
theorem short_series_behavior (cfg : Config) (df : List Bar)
    (h : df.length < cfg.LOOKBACK + cfg.RETTEST_LOOKAHEAD + 1) :
    (∀ j, detect_breakout_retests cfg df j = none) ∧
    (cfg.LOOKBACK < df.length →
      backtest cfg df (detect_breakout_retests cfg df) =
        some ⟨cfg.INITIAL_BALANCE, [cfg.INITIAL_BALANCE],
          [timeAt df cfg.LOOKBACK], 0, 0⟩) ∧
    (df.length ≤ cfg.LOOKBACK → ∀ sig, backtest cfg df sig = none) := by
  have hdr : detectRange cfg df = [] := by
    rw [detectRange]
    have h0 : df.length - cfg.RETTEST_LOOKAHEAD - cfg.LOOKBACK = 0 := by omega
    rw [h0]
    rfl
  have hdet : ∀ j, detect_breakout_retests cfg df j = none := by
    intro j
    rw [detect_breakout_retests, hdr]
    rfl
  refine ⟨hdet, ?_, ?_⟩
  · intro hL
    rw [backtest, if_pos hL,
      foldlM_step_no_signal cfg df _ (btRange cfg df) _ (fun i _ => hdet i)]
  · intro hle sig
    rw [backtest, if_neg (by omega)]

/-- Witness for the amended C8: the 2-bar series `dfC8` with
`LOOKBACK = 1`, `RETTEST_LOOKAHEAD = 1` produces no signal anywhere and
a silent seed-only backtest result. -/
theorem short_series_behavior_witness :
    dfC8.length < cfgC8.LOOKBACK + cfgC8.RETTEST_LOOKAHEAD + 1 ∧
    ((∀ j, detect_breakout_retests cfgC8 dfC8 j = none) ∧
     (cfgC8.LOOKBACK < dfC8.length →
       backtest cfgC8 dfC8 (detect_breakout_retests cfgC8 dfC8) =
         some ⟨cfgC8.INITIAL_BALANCE, [cfgC8.INITIAL_BALANCE],
           [timeAt dfC8 cfgC8.LOOKBACK], 0, 0⟩) ∧
     (dfC8.length ≤ cfgC8.LOOKBACK → ∀ sig, backtest cfgC8 dfC8 sig = none)) :=
  ⟨by decide, short_series_behavior cfgC8 dfC8 (by decide)⟩

/-- C9: degenerate statistics never abort the computation.  For every
positive equity sequence of length at least 2 (equity points are account
balances, positive by the data model): the maximum drawdown is `≤ 0`;
the annualized return is undefined (`none`, the model's `NaN`) exactly
when the elapsed years are `≤ 0`; a zero sample standard deviation makes
the Sharpe-like ratio undefined; and the Calmar ratio is the annualized
return divided by `|max drawdown|` when the drawdown is negative and
undefined otherwise — each metric is still returned as a value. -/
theorem degenerate_stats (eq ts : List ℚ) (h2 : 2 ≤ eq.length)
    (hpos : ∀ x ∈ eq, 0 < x) :
    max_dd eq ≤ 0 ∧
    (ann_ret eq ts = none ↔ years ts ≤ 0) ∧
    (std_ret eq = some 0 → sharpe eq ts = none) ∧
    (max_dd eq < 0 → calmar eq ts =
      (ann_ret eq ts).map (fun a => a / |(max_dd eq : ℝ)|)) ∧
    (0 ≤ max_dd eq → calmar eq ts = none) := by
  refine ⟨?_, ?_, ?_, ?_, ?_⟩
  · cases eq with
    | nil => simp at h2
    | cons e0 rest =>
      have hd : drawdowns (e0 :: rest) = ((e0 - e0) / e0) ::
          List.zipWith (fun e p => (e - p) / p) rest (runningMaxAux e0 rest) := rfl
      have hz : (e0 - e0) / e0 = 0 := by rw [sub_self, zero_div]
      rw [max_dd, hd, hz]
      exact listMin_cons_le 0 _
  · by_cases hy : 0 < years ts
    · rw [ann_ret, if_pos hy]
      exact ⟨fun hcon => absurd hcon (Option.some_ne_none _),
        fun hle => absurd hy (not_lt.mpr hle)⟩
    · rw [ann_ret, if_neg hy]
      exact ⟨fun _ => le_of_not_lt hy, fun _ => rfl⟩
  · intro h0
    rw [sharpe, h0]
    simp only
    rw [if_neg (lt_irrefl (0 : ℝ))]
  · intro hlt
    rw [calmar, if_pos hlt]
  · intro hge
    rw [calmar, if_neg (not_lt.mpr hge)]

/-- Witness for C9 at the spec's own scenario `[10000, 10200]` over one
year: two positive equity points. -/
theorem degenerate_stats_witness :
    2 ≤ eqC9.length ∧ (∀ x ∈ eqC9, 0 < x) ∧
    (max_dd eqC9 ≤ 0 ∧
     (ann_ret eqC9 tsC9 = none ↔ years tsC9 ≤ 0) ∧
     (std_ret eqC9 = some 0 → sharpe eqC9 tsC9 = none) ∧
     (max_dd eqC9 < 0 → calmar eqC9 tsC9 =
       (ann_ret eqC9 tsC9).map (fun a => a / |(max_dd eqC9 : ℝ)|)) ∧
     (0 ≤ max_dd eqC9 → calmar eqC9 tsC9 = none)) :=
  ⟨by decide, by decide, degenerate_stats eqC9 tsC9 (by decide) (by decide)⟩

/-- C10 (implicit): whenever `backtest` returns — in particular whenever
every opened trade resolves — the final balance is
`INITIAL_BALANCE * (1 + RR*RISK_PER_TRADE)^wins * (1 - RISK_PER_TRADE)^losses`:
it depends only on the win and loss counts, not on the order of
outcomes; and with `0 < RISK_PER_TRADE < 1`, `RR > 0` and a positive
initial balance every recorded equity value stays strictly positive. -/
theorem balance_formula_and_positivity (cfg : Config) (df : List Bar)
    (sig : ℕ → Option Dir) (res : BTResult) (h : backtest cfg df sig = some res)
    (hI : 0 < cfg.INITIAL_BALANCE) (h0 : 0 < cfg.RISK_PER_TRADE)
    (h1 : cfg.RISK_PER_TRADE < 1) (h2 : 0 < cfg.RR) :
    res.balance = cfg.INITIAL_BALANCE *
      (1 + cfg.RR * cfg.RISK_PER_TRADE) ^ res.wins *
      (1 - cfg.RISK_PER_TRADE) ^ res.losses ∧
    ∀ x ∈ res.equity, 0 < x := by
  rw [backtest] at h
  by_cases hL : cfg.LOOKBACK < df.length
  · rw [if_pos hL] at h
    cases hf : (btRange cfg df).foldlM (step cfg df sig)
        ⟨cfg.INITIAL_BALANCE, [cfg.INITIAL_BALANCE], [timeAt df cfg.LOOKBACK],
         0, 0, none⟩ with
    | none => rw [hf] at h; cases h
    | some st =>
      rw [hf] at h
      simp only [Option.some.injEq] at h
      subst h
      constructor
      · show st.balance = cfg.INITIAL_BALANCE *
          (1 + cfg.RR * cfg.RISK_PER_TRADE) ^ st.wins *
          (1 - cfg.RISK_PER_TRADE) ^ st.losses
        obtain ⟨-, -, -, hb, -, -, -, -⟩ := foldlM_step_delta cfg df sig _ _ _ hf
        simp only at hb
        rw [hb, Nat.sub_zero, Nat.sub_zero, mul_assoc]
      · show ∀ x ∈ st.equity, 0 < x
        refine (foldlM_step_pos cfg df sig h0 h1 h2 _ _ _ hf hI ?_).2
        intro x hx
        rw [List.mem_singleton.mp hx]
        exact hI
  · rw [if_neg hL] at h
    cases h

/-- Witness for C10: the single resolved losing trade of `dfC10` leaves
`10000 * (1 + 2/100)^0 * (99/100)^1 = 9900`, and both equity values are
positive. -/
theorem balance_formula_and_positivity_witness :
    backtest cfgC10 dfC10 sigC10 = some ⟨9900, [10000, 9900], [1, 3], 0, 1⟩ ∧
    (⟨9900, [10000, 9900], [1, 3], 0, 1⟩ : BTResult).balance =
      cfgC10.INITIAL_BALANCE *
      (1 + cfgC10.RR * cfgC10.RISK_PER_TRADE) ^
        (⟨9900, [10000, 9900], [1, 3], 0, 1⟩ : BTResult).wins *
      (1 - cfgC10.RISK_PER_TRADE) ^
        (⟨9900, [10000, 9900], [1, 3], 0, 1⟩ : BTResult).losses ∧
    ∀ x ∈ (⟨9900, [10000, 9900], [1, 3], 0, 1⟩ : BTResult).equity, 0 < x :=
  ⟨by norm_num [backtest, btRange, step, resolveScan, scanFirst, barOutcome,
     stopHit, targetHit, stopOf, targetOf, windowSlice, listMin, listMax,
     closeAt, lowAt, highAt, timeAt, barAt, cfgC10, dfC10, sigC10, List.range',
     List.foldlM, List.getD],
   (balance_formula_and_positivity cfgC10 dfC10 sigC10
     ⟨9900, [10000, 9900], [1, 3], 0, 1⟩
     (by norm_num [backtest, btRange, step, resolveScan, scanFirst, barOutcome,
       stopHit, targetHit, stopOf, targetOf, windowSlice, listMin, listMax,
       closeAt, lowAt, highAt, timeAt, barAt, cfgC10, dfC10, sigC10,
       List.range', List.foldlM, List.getD])
     (by norm_num [cfgC10]) (by norm_num [cfgC10]) (by norm_num [cfgC10])
     (by norm_num [cfgC10])).1,
   (balance_formula_and_positivity cfgC10 dfC10 sigC10
     ⟨9900, [10000, 9900], [1, 3], 0, 1⟩
     (by norm_num [backtest, btRange, step, resolveScan, scanFirst, barOutcome,
       stopHit, targetHit, stopOf, targetOf, windowSlice, listMin, listMax,
       closeAt, lowAt, highAt, timeAt, barAt, cfgC10, dfC10, sigC10,
       List.range', List.foldlM, List.getD])
     (by norm_num [cfgC10]) (by norm_num [cfgC10]) (by norm_num [cfgC10])
     (by norm_num [cfgC10])).2⟩

end BRT
